import Mathlib

set_option maxHeartbeats 1000000

/-!
Verification of the decode engines of `src/dumpasn1.rs` and `src/dumpcbor.rs`.

The Rust readers are embedded shallowly: the byte source becomes an explicit
`List Nat` of bytes (each intended `< 256`), the dumper state (`f_pos` /
`offset`, `no_errors`, `no_warnings`) is threaded explicitly, and fallible
reads return `Except`.  Printing is abstracted to the decoded values the
printer would emit; byte consumption and position bookkeeping mirror the
source exactly.  The mutually recursive decode loops take a fuel parameter
(decremented on every recursive call); `DecErr.outOfFuel` marks exhaustion,
which the theorems below always rule out by supplying enough fuel.
-/

/-- Outcomes of the ASN.1 engine.  `truncated` models `read_exact` hitting
EOF (`io::ErrorKind::UnexpectedEof`), `lengthTooLong` the
`"Length too long"` `InvalidData` error, `panicked` the Rust panics reachable
in `dump_hex` (negative length used as a `vec` size) and `print_integer`
(`buffer[0]` on an empty buffer).  Errors abort the current top-level decode,
as `?` does in the source, so no state is carried on the error path. -/
inductive DecErr where
  | truncated
  | lengthTooLong
  | panicked
  | outOfFuel
  deriving DecidableEq, Repr

/-- The mutable fields of `Asn1Dumper` threaded through decoding. -/
structure Asn1St where
  fPos : Nat
  noErrors : Nat
  noWarnings : Nat
  deriving DecidableEq, Repr

/-- `Asn1Item`: tag class + form bits (`id`), the (u8-stored) tag number,
declared length, flags and the raw header bytes, as in the source. -/
structure Asn1Item where
  id : Nat
  tag : Nat
  length : Int
  indefinite : Bool
  nonCanonical : Bool
  header : List Nat
  headerSize : Nat
  deriving DecidableEq, Repr

/-- The `Config` fields that the ASN.1 decode path can observe.  The source's
remaining fields only affect text layout.  `zeroLengthAllowed` is carried
because the source declares and parses it (`-z`), even though no decoding
code ever reads it. -/
structure Config where
  checkCharset : Bool
  printAllData : Bool
  maxNestLevel : Nat
  zeroLengthAllowed : Bool
  deriving DecidableEq, Repr

/-- `Config::default()`, restricted to the observed fields. -/
def defaultConfig : Config :=
  { checkCharset := true, printAllData := false, maxNestLevel := 100,
    zeroLengthAllowed := false }

/-- Universal tag constants from the source. -/
def BOOLEAN : Nat := 0x01
def INTEGER : Nat := 0x02
def BITSTRING : Nat := 0x03
def OCTETSTRING : Nat := 0x04
def NULLTAG : Nat := 0x05
def OID : Nat := 0x06
def ENUMERATED : Nat := 0x0A
def UTF8STRING : Nat := 0x0C
def NUMERICSTRING : Nat := 0x12
def PRINTABLESTRING : Nat := 0x13
def T61STRING : Nat := 0x14
def VIDEOTEXSTRING : Nat := 0x15
def IA5STRING : Nat := 0x16
def UTCTIME : Nat := 0x17
def GENERALIZEDTIME : Nat := 0x18
def VISIBLESTRING : Nat := 0x1A
def GENERALSTRING : Nat := 0x1B
def UNIVERSALSTRING : Nat := 0x1C
def BMPSTRING : Nat := 0x1E

/-- `reader.read_exact` on an `n`-byte buffer: succeeds iff `n` bytes are
available, consuming them; otherwise `UnexpectedEof`. -/
def readExact (n : Nat) (bs : List Nat) : Except DecErr (List Nat × List Nat) :=
  if n ≤ bs.length then .ok (bs.take n, bs.drop n) else .error .truncated

/-- The high-tag-number continuation loop of `get_item`: pushes each byte on
the header, accumulates 7 tag bits per byte, bumps `f_pos`, and stops when
the continuation bit is clear or the header has reached 5 bytes. -/
def readTagLoop (bs : List Nat) (header : List Nat) (tagNum : Nat) (s : Asn1St) :
    Except DecErr (List Nat × Nat × List Nat × Asn1St) :=
  match bs with
  | [] => .error .truncated
  | b :: rest =>
    let header1 := header ++ [b]
    let tagNum1 := (tagNum <<< 7) ||| (b &&& 0x7F)
    let s1 : Asn1St := { s with fPos := s.fPos + 1 }
    if b &&& 0x80 = 0 ∨ 5 ≤ header1.length then
      .ok (header1, tagNum1, rest, s1)
    else
      readTagLoop rest header1 tagNum1 s1

/-- The long-form length loop of `get_item`: reads `n` big-endian bytes into
the accumulator (`(length << 8) | byte`), pushing each on the header. -/
def readLenBytes (bs : List Nat) (n : Nat) (header : List Nat) (acc : Nat) :
    Except DecErr (Nat × List Nat × List Nat) :=
  match n, bs with
  | 0, _ => .ok (acc, header, bs)
  | _ + 1, [] => .error .truncated
  | n + 1, b :: rest => readLenBytes rest n (header ++ [b]) ((acc <<< 8) ||| b)

/-- `Asn1Dumper::get_item`: reads one tag + length header.  Returns `none`
only when zero bytes are available at the point a new unit is expected; any
partial header is `truncated`.  `item.tag` is stored through `as u8`, hence
the `% 256`. -/
def getItem (bs : List Nat) (s : Asn1St) :
    Except DecErr (Option Asn1Item × List Nat × Asn1St) :=
  match bs with
  | [] => .ok (none, [], s)
  | tag :: rest =>
    let id := tag &&& 0xE0
    let tagNum0 := tag &&& 0x1F
    match (if tagNum0 = 0x1F then readTagLoop rest [tag] 0 s
           else .ok ([tag], tagNum0, rest, s)) with
    | .error e => .error e
    | .ok (header, tagNum, bs1, s1) =>
      match bs1 with
      | [] => .error .truncated
      | lenB :: bs2 =>
        let header1 := header ++ [lenB]
        let s2 : Asn1St := { s1 with fPos := s1.fPos + 2 }
        if lenB &&& 0x80 ≠ 0 then
          let numOctets := lenB &&& 0x7F
          if numOctets = 0 then
            .ok (some ⟨id, tagNum % 256, 0, true, false, header1, header1.length⟩,
                 bs2, s2)
          else if 4 < numOctets then
            .error .lengthTooLong
          else
            match readLenBytes bs2 numOctets header1 0 with
            | .error e => .error e
            | .ok (len, header2, bs3) =>
              let s3 : Asn1St := { s2 with fPos := s2.fPos + numOctets }
              .ok (some ⟨id, tagNum % 256, (len : Int), false, decide (len < 128),
                         header2, header2.length⟩, bs3, s3)
        else
          .ok (some ⟨id, tagNum % 256, (lenB : Int), false, false,
                     header1, header1.length⟩, bs2, s2)

/-- The decoded value a primitive or constructed printer call would emit;
consumption and position bookkeeping are what the theorems track. -/
inductive Asn1Out where
  | skipped
  | constructed (cs : List Asn1Out)
  | boolVal (b : Bool)
  | intVal (v : Int)
  | hexData
  | strData
  | nullVal
  | oidData
  | bitStr
  deriving Repr

/-- `Asn1Dumper::dump_hex`: reads `min(length, 384)` bytes (all of them with
`print_all_data`), then the remainder, and advances `f_pos` by `length`.
A negative `length` is used as a `vec` size in the source and panics. -/
def dumpHex (printAll : Bool) (len : Int) (bs : List Nat) (s : Asn1St) :
    Except DecErr (List Nat × Asn1St) :=
  let btr : Int := if printAll then len else min len 384
  if btr < 0 then .error .panicked
  else
    match readExact btr.toNat bs with
    | .error e => .error e
    | .ok (_, bs1) =>
      if btr < len ∧ ¬ printAll then
        match readExact (len - btr).toNat bs1 with
        | .error e => .error e
        | .ok (_, bs2) => .ok (bs2, { s with fPos := s.fPos + len.toNat })
      else
        .ok (bs1, { s with fPos := s.fPos + len.toNat })

/-- `Asn1Dumper::print_string`: identical byte consumption to `dump_hex`
(the two differ only in the text they print). -/
def printString (printAll : Bool) (len : Int) (bs : List Nat) (s : Asn1St) :
    Except DecErr (List Nat × Asn1St) :=
  let btr : Int := if printAll then len else min len 384
  if btr < 0 then .error .panicked
  else
    match readExact btr.toNat bs with
    | .error e => .error e
    | .ok (_, bs1) =>
      if btr < len ∧ ¬ printAll then
        match readExact (len - btr).toNat bs1 with
        | .error e => .error e
        | .ok (_, bs2) => .ok (bs2, { s with fPos := s.fPos + len.toNat })
      else
        .ok (bs1, { s with fPos := s.fPos + len.toNat })

/-- `Asn1Dumper::print_integer`: lengths over 8 fall back to a hex dump;
otherwise the bytes are read and interpreted as big-endian two's complement
(the source's `(value << shift) >> shift` sign extension equals subtracting
`2 ^ (8 * length)` when the top bit of the first byte is set, in the
release-mode wrapping semantics).  `buffer[0]` on an empty buffer panics. -/
def printInteger (printAll : Bool) (len : Int) (bs : List Nat) (s : Asn1St) :
    Except DecErr (Asn1Out × List Nat × Asn1St) :=
  if 8 < len then
    match dumpHex printAll len bs s with
    | .error e => .error e
    | .ok (bs1, s1) => .ok (.hexData, bs1, s1)
  else
    match readExact len.toNat bs with
    | .error e => .error e
    | .ok (buf, bs1) =>
      match buf with
      | [] => .error .panicked
      | b0 :: _ =>
        let raw : Nat := buf.foldl (fun a b => (a <<< 8) ||| b) 0
        let value : Int :=
          if b0 &&& 0x80 ≠ 0 then (raw : Int) - (2 : Int) ^ (8 * buf.length)
          else (raw : Int)
        .ok (.intVal value, bs1, { s with fPos := s.fPos + len.toNat })

/-- `Asn1Dumper::print_oid`: reads the whole payload; an empty payload
returns early (before the `f_pos` update, which is then a no-op anyway). -/
def printOid (len : Int) (bs : List Nat) (s : Asn1St) :
    Except DecErr (Asn1Out × List Nat × Asn1St) :=
  match readExact len.toNat bs with
  | .error e => .error e
  | .ok (buf, bs1) =>
    if buf.isEmpty then .ok (.oidData, bs1, s)
    else .ok (.oidData, bs1, { s with fPos := s.fPos + len.toNat })

mutual

/-- `Asn1Dumper::print_asn1_object`: the depth cutoff returns immediately
(consuming nothing), constructed items recurse, and primitive items dispatch
on the tag exactly as the source's `match` does.  The BOOLEAN arm reads one
byte regardless of the declared length. -/
def printAsn1Object (fuel : Nat) (cfg : Config) (bs : List Nat) (s : Asn1St)
    (item : Asn1Item) (level : Nat) :
    Except DecErr (Asn1Out × List Nat × Asn1St) :=
  match fuel with
  | 0 => .error .outOfFuel
  | f + 1 =>
    if cfg.maxNestLevel < level then .ok (.skipped, bs, s)
    else if item.id &&& 0x20 = 0x20 then
      printConstructed f cfg bs s level item
    else if item.tag = BOOLEAN then
      match bs with
      | [] => .error .truncated
      | b :: bs1 => .ok (.boolVal (b != 0), bs1, { s with fPos := s.fPos + 1 })
    else if item.tag = INTEGER ∨ item.tag = ENUMERATED then
      printInteger cfg.printAllData item.length bs s
    else if item.tag = BITSTRING then
      match bs with
      | [] => .error .truncated
      | _ :: bs1 =>
        match dumpHex cfg.printAllData (item.length - 1) bs1
                { s with fPos := s.fPos + 1 } with
        | .error e => .error e
        | .ok (bs2, s2) => .ok (.bitStr, bs2, s2)
    else if item.tag = OCTETSTRING then
      if cfg.checkCharset ∧ 0 < item.length ∧ item.length < 1024 then
        match printString cfg.printAllData item.length bs s with
        | .error e => .error e
        | .ok (bs1, s1) => .ok (.strData, bs1, s1)
      else
        match dumpHex cfg.printAllData item.length bs s with
        | .error e => .error e
        | .ok (bs1, s1) => .ok (.hexData, bs1, s1)
    else if item.tag = NULLTAG then .ok (.nullVal, bs, s)
    else if item.tag = OID then printOid item.length bs s
    else if item.tag = UTF8STRING ∨ item.tag = PRINTABLESTRING ∨
            item.tag = IA5STRING ∨ item.tag = VISIBLESTRING ∨
            item.tag = GENERALSTRING ∨ item.tag = NUMERICSTRING ∨
            item.tag = T61STRING ∨ item.tag = VIDEOTEXSTRING then
      match printString cfg.printAllData item.length bs s with
      | .error e => .error e
      | .ok (bs1, s1) => .ok (.strData, bs1, s1)
    else if item.tag = UTCTIME ∨ item.tag = GENERALIZEDTIME then
      match printString cfg.printAllData item.length bs s with
      | .error e => .error e
      | .ok (bs1, s1) => .ok (.strData, bs1, s1)
    else if item.tag = BMPSTRING ∨ item.tag = UNIVERSALSTRING then
      match printString cfg.printAllData item.length bs s with
      | .error e => .error e
      | .ok (bs1, s1) => .ok (.strData, bs1, s1)
    else
      match dumpHex cfg.printAllData item.length bs s with
      | .error e => .error e
      | .ok (bs1, s1) => .ok (.hexData, bs1, s1)
termination_by structural fuel

/-- `Asn1Dumper::print_constructed`: zero-length definite items print `{}`;
indefinite items loop until an end-of-contents unit, definite items loop
while `f_pos` is below the declared end. -/
def printConstructed (fuel : Nat) (cfg : Config) (bs : List Nat) (s : Asn1St)
    (level : Nat) (item : Asn1Item) :
    Except DecErr (Asn1Out × List Nat × Asn1St) :=
  match fuel with
  | 0 => .error .outOfFuel
  | f + 1 =>
    if item.length = 0 ∧ ¬ item.indefinite then .ok (.constructed [], bs, s)
    else if item.indefinite then
      match indefLoop f cfg bs s level [] with
      | .error e => .error e
      | .ok (cs, bs1, s1) => .ok (.constructed cs, bs1, s1)
    else
      let endPos := s.fPos + item.length.toNat
      match defLoop f cfg bs s endPos level [] with
      | .error e => .error e
      | .ok (cs, bs1, s1) => .ok (.constructed cs, bs1, s1)
termination_by structural fuel

/-- The indefinite-length loop of `print_constructed`: reads sibling items
until an end-of-contents item (tag 0, length 0), a read failure, or a clean
EOF (`get_item` returning `none`), which exits the loop without error. -/
def indefLoop (fuel : Nat) (cfg : Config) (bs : List Nat) (s : Asn1St)
    (level : Nat) (acc : List Asn1Out) :
    Except DecErr (List Asn1Out × List Nat × Asn1St) :=
  match fuel with
  | 0 => .error .outOfFuel
  | f + 1 =>
    match getItem bs s with
    | .error e => .error e
    | .ok (none, bs1, s1) => .ok (acc, bs1, s1)
    | .ok (some sub, bs1, s1) =>
      if sub.tag = 0 ∧ sub.length = 0 then .ok (acc, bs1, s1)
      else
        match printAsn1Object f cfg bs1 s1 sub (level + 1) with
        | .error e => .error e
        | .ok (out, bs2, s2) => indefLoop f cfg bs2 s2 level (acc ++ [out])
termination_by structural fuel

/-- The definite-length loop of `print_constructed`: decodes children while
`f_pos < end_pos`; a clean EOF (`get_item` returning `none`) exits the loop
without error, and a child may advance `f_pos` past `end_pos` unchecked. -/
def defLoop (fuel : Nat) (cfg : Config) (bs : List Nat) (s : Asn1St)
    (endPos : Nat) (level : Nat) (acc : List Asn1Out) :
    Except DecErr (List Asn1Out × List Nat × Asn1St) :=
  match fuel with
  | 0 => .error .outOfFuel
  | f + 1 =>
    if s.fPos < endPos then
      match getItem bs s with
      | .error e => .error e
      | .ok (none, bs1, s1) => .ok (acc, bs1, s1)
      | .ok (some sub, bs1, s1) =>
        match printAsn1Object f cfg bs1 s1 sub (level + 1) with
        | .error e => .error e
        | .ok (out, bs2, s2) => defLoop f cfg bs2 s2 endPos level (acc ++ [out])
    else
      .ok (acc, bs, s)
termination_by structural fuel

end

/-- `Asn1Dumper::dump_asn1`: decodes top-level items until a clean EOF,
collecting what each `print_asn1_object` call emitted. -/
def dumpAsn1 (fuel : Nat) (cfg : Config) (bs : List Nat) (s : Asn1St) :
    Except DecErr (List Asn1Out × List Nat × Asn1St) :=
  match fuel with
  | 0 => .error .outOfFuel
  | f + 1 =>
    match getItem bs s with
    | .error e => .error e
    | .ok (none, bs1, s1) => .ok ([], bs1, s1)
    | .ok (some item, bs1, s1) =>
      match printAsn1Object f cfg bs1 s1 item 0 with
      | .error e => .error e
      | .ok (out, bs2, s2) =>
        match dumpAsn1 f cfg bs2 s2 with
        | .error e => .error e
        | .ok (outs, bs3, s3) => .ok (out :: outs, bs3, s3)

/-- Outcomes of the CBOR engine, mirroring the `io::Error` values of
`dumpcbor.rs` (`truncated` again models `read_exact` at EOF). -/
inductive CErr where
  | truncated
  | invalidAdditionalInfo
  | invalidMajorType
  | missingTaggedValue
  | outOfFuel
  deriving DecidableEq, Repr

/-- The mutable fields of `CborDumper` threaded through decoding. -/
structure CborSt where
  offset : Nat
  noErrors : Nat
  noWarnings : Nat
  deriving DecidableEq, Repr

mutual

/-- `CborItem` (the `raw_bytes` field is always left empty by
`CborItem::new` in the source and is omitted). -/
inductive CborItem where
  | mk (majorType : Nat) (additionalInfo : Nat) (value : CborValue)

/-- `CborValue`.  Strings are kept as their byte lists; the text produced
for invalid UTF-8 payloads is the placeholder `invalidUtf8Msg` below.
Floats are kept as their IEEE-754 bit patterns (`Float16` after the
`f16_to_f32` widening, as in the source). -/
inductive CborValue where
  | Unsigned (n : Nat)
  | Negative (n : Int)
  | Bytes (bs : List Nat)
  | Text (bs : List Nat)
  | Array (items : List CborItem)
  | Map (pairs : List (CborItem × CborItem))
  | Tag (t : Nat) (item : CborItem)
  | Simple (n : Nat)
  | Boolean (b : Bool)
  | Null
  | Undefined
  | Float16 (bits : Nat)
  | Float32 (bits : Nat)
  | Float64 (bits : Nat)
  | Break

end

/-- Stand-in bytes for the `"<invalid UTF-8: ...>"` placeholder string the
source substitutes for a non-UTF-8 text payload. -/
def invalidUtf8Msg : List Nat := [0x3C, 0x69, 0x6E, 0x76, 0x61, 0x6C, 0x69, 0x64, 0x3E]

/-- `read_exact` for the CBOR engine. -/
def readExactC (n : Nat) (bs : List Nat) : Except CErr (List Nat × List Nat) :=
  if n ≤ bs.length then .ok (bs.take n, bs.drop n) else .error .truncated

/-- Big-endian value of a byte list (`uNN::from_be_bytes`). -/
def beVal (l : List Nat) : Nat := l.foldl (fun a b => (a <<< 8) ||| b) 0

/-- `as i64` on a `u64` value: two's-complement reinterpretation. -/
def toI64 (n : Nat) : Int := if n < 2 ^ 63 then (n : Int) else (n : Int) - 2 ^ 64

/-- `f16_to_f32` of the source, on bit patterns: re-biases exponent and
mantissa; the subnormal arm keeps the normal-form re-bias (no
renormalisation), which is what the theorem about C9 examines. -/
def f16_to_f32 (bits : Nat) : Nat :=
  let sign := (bits >>> 15) &&& 1
  let exp := (bits >>> 10) &&& 0x1F
  let mant := bits &&& 0x3FF
  if exp = 0 then
    if mant = 0 then sign <<< 31
    else (sign <<< 31) ||| ((127 - 15) <<< 23) ||| (mant <<< 13)
  else if exp = 0x1F then
    if mant = 0 then (sign <<< 31) ||| (0xFF <<< 23)
    else (sign <<< 31) ||| (0xFF <<< 23) ||| (mant <<< 13)
  else
    (sign <<< 31) ||| ((exp + 127 - 15) <<< 23) ||| (mant <<< 13)

/-- UTF-8 well-formedness of a byte list, as `String::from_utf8` checks it
(continuation ranges, overlong forms and surrogates rejected). -/
def utf8Valid : List Nat → Bool
  | [] => true
  | b :: rest =>
    if b < 0x80 then utf8Valid rest
    else if 0xC2 ≤ b ∧ b ≤ 0xDF then
      match rest with
      | c1 :: r => if 0x80 ≤ c1 ∧ c1 ≤ 0xBF then utf8Valid r else false
      | _ => false
    else if 0xE0 ≤ b ∧ b ≤ 0xEF then
      match rest with
      | c1 :: c2 :: r =>
        let lo1 := if b = 0xE0 then 0xA0 else 0x80
        let hi1 := if b = 0xED then 0x9F else 0xBF
        if (lo1 ≤ c1 ∧ c1 ≤ hi1) ∧ (0x80 ≤ c2 ∧ c2 ≤ 0xBF) then utf8Valid r
        else false
      | _ => false
    else if 0xF0 ≤ b ∧ b ≤ 0xF4 then
      match rest with
      | c1 :: c2 :: c3 :: r =>
        let lo1 := if b = 0xF0 then 0x90 else 0x80
        let hi1 := if b = 0xF4 then 0x8F else 0xBF
        if (lo1 ≤ c1 ∧ c1 ≤ hi1) ∧ (0x80 ≤ c2 ∧ c2 ≤ 0xBF) ∧
           (0x80 ≤ c3 ∧ c3 ≤ 0xBF) then utf8Valid r
        else false
      | _ => false
    else false

/-- `CborDumper::read_additional`: additional-info 0..23 is the value
itself, 24/25/26/27 read 1/2/4/8 big-endian bytes, 31 yields the
`u64::MAX` indefinite marker, everything else (28..30) is
`"Invalid additional info"`. -/
def readAdditional (bs : List Nat) (ai : Nat) (s : CborSt) :
    Except CErr (Nat × List Nat × CborSt) :=
  if ai ≤ 23 then .ok (ai, bs, s)
  else if ai = 24 then
    match readExactC 1 bs with
    | .error e => .error e
    | .ok (buf, rest) => .ok (beVal buf, rest, { s with offset := s.offset + 1 })
  else if ai = 25 then
    match readExactC 2 bs with
    | .error e => .error e
    | .ok (buf, rest) => .ok (beVal buf, rest, { s with offset := s.offset + 2 })
  else if ai = 26 then
    match readExactC 4 bs with
    | .error e => .error e
    | .ok (buf, rest) => .ok (beVal buf, rest, { s with offset := s.offset + 4 })
  else if ai = 27 then
    match readExactC 8 bs with
    | .error e => .error e
    | .ok (buf, rest) => .ok (beVal buf, rest, { s with offset := s.offset + 8 })
  else if ai = 31 then .ok (2 ^ 64 - 1, bs, s)
  else .error .invalidAdditionalInfo

mutual

/-- `CborDumper::read_item`: reads the initial byte (returning `none` only
when zero bytes are available), splits major type / additional info, and
dispatches exactly as the source's `match` does. -/
def readItem (fuel : Nat) (bs : List Nat) (s : CborSt) :
    Except CErr (Option CborItem × List Nat × CborSt) :=
  match fuel with
  | 0 => .error .outOfFuel
  | f + 1 =>
    match bs with
    | [] => .ok (none, [], s)
    | byte :: rest =>
      let major := (byte >>> 5) &&& 0x07
      let ai := byte &&& 0x1F
      let s0 : CborSt := { s with offset := s.offset + 1 }
      if major = 0 then
        match readAdditional rest ai s0 with
        | .error e => .error e
        | .ok (val, bs1, s1) => .ok (some (.mk major ai (.Unsigned val)), bs1, s1)
      else if major = 1 then
        match readAdditional rest ai s0 with
        | .error e => .error e
        | .ok (val, bs1, s1) =>
          .ok (some (.mk major ai (.Negative (-1 - toI64 val))), bs1, s1)
      else if major = 2 then
        if ai = 31 then
          match bytesLoop f rest s0 [] with
          | .error e => .error e
          | .ok (chunks, bs1, s1) => .ok (some (.mk major ai (.Bytes chunks)), bs1, s1)
        else
          match readAdditional rest ai s0 with
          | .error e => .error e
          | .ok (len, bs1, s1) =>
            match readExactC len bs1 with
            | .error e => .error e
            | .ok (bytes, bs2) =>
              .ok (some (.mk major ai (.Bytes bytes)), bs2,
                   { s1 with offset := s1.offset + len })
      else if major = 3 then
        if ai = 31 then
          match textLoop f rest s0 [] with
          | .error e => .error e
          | .ok (text, bs1, s1) => .ok (some (.mk major ai (.Text text)), bs1, s1)
        else
          match readAdditional rest ai s0 with
          | .error e => .error e
          | .ok (len, bs1, s1) =>
            match readExactC len bs1 with
            | .error e => .error e
            | .ok (bytes, bs2) =>
              let s2 : CborSt := { s1 with offset := s1.offset + len }
              if utf8Valid bytes then
                .ok (some (.mk major ai (.Text bytes)), bs2, s2)
              else
                .ok (some (.mk major ai (.Text invalidUtf8Msg)), bs2,
                     { s2 with noErrors := s2.noErrors + 1 })
      else if major = 4 then
        if ai = 31 then
          match arrayIndefLoop f rest s0 [] with
          | .error e => .error e
          | .ok (items, bs1, s1) => .ok (some (.mk major ai (.Array items)), bs1, s1)
        else
          match readAdditional rest ai s0 with
          | .error e => .error e
          | .ok (len, bs1, s1) =>
            match arrayDefLoop f len bs1 s1 [] with
            | .error e => .error e
            | .ok (items, bs2, s2) => .ok (some (.mk major ai (.Array items)), bs2, s2)
      else if major = 5 then
        if ai = 31 then
          match mapIndefLoop f rest s0 [] with
          | .error e => .error e
          | .ok (pairs, bs1, s1) => .ok (some (.mk major ai (.Map pairs)), bs1, s1)
        else
          match readAdditional rest ai s0 with
          | .error e => .error e
          | .ok (len, bs1, s1) =>
            match mapDefLoop f len bs1 s1 [] with
            | .error e => .error e
            | .ok (pairs, bs2, s2) => .ok (some (.mk major ai (.Map pairs)), bs2, s2)
      else if major = 6 then
        match readAdditional rest ai s0 with
        | .error e => .error e
        | .ok (tagVal, bs1, s1) =>
          match readItem f bs1 s1 with
          | .error e => .error e
          | .ok (some inner, bs2, s2) =>
            .ok (some (.mk major ai (.Tag tagVal inner)), bs2, s2)
          | .ok (none, _, _) => .error .missingTaggedValue
      else if major = 7 then
        if ai = 20 then .ok (some (.mk major ai (.Boolean false)), rest, s0)
        else if ai = 21 then .ok (some (.mk major ai (.Boolean true)), rest, s0)
        else if ai = 22 then .ok (some (.mk major ai .Null), rest, s0)
        else if ai = 23 then .ok (some (.mk major ai .Undefined), rest, s0)
        else if ai = 25 then
          match readExactC 2 rest with
          | .error e => .error e
          | .ok (buf, bs1) =>
            .ok (some (.mk major ai (.Float16 (f16_to_f32 (beVal buf)))), bs1,
                 { s0 with offset := s0.offset + 2 })
        else if ai = 26 then
          match readExactC 4 rest with
          | .error e => .error e
          | .ok (buf, bs1) =>
            .ok (some (.mk major ai (.Float32 (beVal buf))), bs1,
                 { s0 with offset := s0.offset + 4 })
        else if ai = 27 then
          match readExactC 8 rest with
          | .error e => .error e
          | .ok (buf, bs1) =>
            .ok (some (.mk major ai (.Float64 (beVal buf))), bs1,
                 { s0 with offset := s0.offset + 8 })
        else if ai = 31 then .ok (some (.mk major ai .Break), rest, s0)
        else if ai < 24 then .ok (some (.mk major ai (.Simple ai)), rest, s0)
        else
          match readAdditional rest ai s0 with
          | .error e => .error e
          | .ok (val, bs1, s1) =>
            .ok (some (.mk major ai (.Simple (val % 256))), bs1, s1)
      else .error .invalidMajorType
termination_by structural fuel

/-- Chunk loop of the indefinite byte string: `Break` and clean EOF exit,
byte-string chunks are concatenated, any other chunk bumps `no_errors` and
is dropped (aggregation continues). -/
def bytesLoop (fuel : Nat) (bs : List Nat) (s : CborSt) (acc : List Nat) :
    Except CErr (List Nat × List Nat × CborSt) :=
  match fuel with
  | 0 => .error .outOfFuel
  | f + 1 =>
    match readItem f bs s with
    | .error e => .error e
    | .ok (none, bs1, s1) => .ok (acc, bs1, s1)
    | .ok (some (.mk _ _ v), bs1, s1) =>
      match v with
      | .Break => .ok (acc, bs1, s1)
      | .Bytes b => bytesLoop f bs1 s1 (acc ++ b)
      | _ => bytesLoop f bs1 { s1 with noErrors := s1.noErrors + 1 } acc
termination_by structural fuel

/-- Chunk loop of the indefinite text string (same shape as `bytesLoop`). -/
def textLoop (fuel : Nat) (bs : List Nat) (s : CborSt) (acc : List Nat) :
    Except CErr (List Nat × List Nat × CborSt) :=
  match fuel with
  | 0 => .error .outOfFuel
  | f + 1 =>
    match readItem f bs s with
    | .error e => .error e
    | .ok (none, bs1, s1) => .ok (acc, bs1, s1)
    | .ok (some (.mk _ _ v), bs1, s1) =>
      match v with
      | .Break => .ok (acc, bs1, s1)
      | .Text t => textLoop f bs1 s1 (acc ++ t)
      | _ => textLoop f bs1 { s1 with noErrors := s1.noErrors + 1 } acc
termination_by structural fuel

/-- Item loop of the indefinite array: `Break` and clean EOF exit, every
other item is collected. -/
def arrayIndefLoop (fuel : Nat) (bs : List Nat) (s : CborSt) (acc : List CborItem) :
    Except CErr (List CborItem × List Nat × CborSt) :=
  match fuel with
  | 0 => .error .outOfFuel
  | f + 1 =>
    match readItem f bs s with
    | .error e => .error e
    | .ok (none, bs1, s1) => .ok (acc, bs1, s1)
    | .ok (some item, bs1, s1) =>
      match item with
      | .mk _ _ .Break => .ok (acc, bs1, s1)
      | _ => arrayIndefLoop f bs1 s1 (acc ++ [item])
termination_by structural fuel

/-- The `for _ in 0..length` loop of the definite array: EOF mid-array
bumps `no_errors` and breaks, yielding the partial array as a success. -/
def arrayDefLoop (fuel : Nat) (count : Nat) (bs : List Nat) (s : CborSt)
    (acc : List CborItem) :
    Except CErr (List CborItem × List Nat × CborSt) :=
  match fuel with
  | 0 => .error .outOfFuel
  | f + 1 =>
    match count with
    | 0 => .ok (acc, bs, s)
    | c + 1 =>
      match readItem f bs s with
      | .error e => .error e
      | .ok (none, bs1, s1) => .ok (acc, bs1, { s1 with noErrors := s1.noErrors + 1 })
      | .ok (some item, bs1, s1) => arrayDefLoop f c bs1 s1 (acc ++ [item])
termination_by structural fuel

/-- Pair loop of the indefinite map: a `Break` key or clean EOF exits; a
missing value bumps `no_errors` and breaks (partial map as success). -/
def mapIndefLoop (fuel : Nat) (bs : List Nat) (s : CborSt)
    (acc : List (CborItem × CborItem)) :
    Except CErr (List (CborItem × CborItem) × List Nat × CborSt) :=
  match fuel with
  | 0 => .error .outOfFuel
  | f + 1 =>
    match readItem f bs s with
    | .error e => .error e
    | .ok (none, bs1, s1) => .ok (acc, bs1, s1)
    | .ok (some key, bs1, s1) =>
      match key with
      | .mk _ _ .Break => .ok (acc, bs1, s1)
      | _ =>
        match readItem f bs1 s1 with
        | .error e => .error e
        | .ok (none, bs2, s2) => .ok (acc, bs2, { s2 with noErrors := s2.noErrors + 1 })
        | .ok (some val, bs2, s2) => mapIndefLoop f bs2 s2 (acc ++ [(key, val)])
termination_by structural fuel

/-- The `for _ in 0..length` loop of the definite map: EOF at a key or a
value bumps `no_errors` and breaks (partial map as success). -/
def mapDefLoop (fuel : Nat) (count : Nat) (bs : List Nat) (s : CborSt)
    (acc : List (CborItem × CborItem)) :
    Except CErr (List (CborItem × CborItem) × List Nat × CborSt) :=
  match fuel with
  | 0 => .error .outOfFuel
  | f + 1 =>
    match count with
    | 0 => .ok (acc, bs, s)
    | c + 1 =>
      match readItem f bs s with
      | .error e => .error e
      | .ok (none, bs1, s1) => .ok (acc, bs1, { s1 with noErrors := s1.noErrors + 1 })
      | .ok (some key, bs1, s1) =>
        match readItem f bs1 s1 with
        | .error e => .error e
        | .ok (none, bs2, s2) => .ok (acc, bs2, { s2 with noErrors := s2.noErrors + 1 })
        | .ok (some val, bs2, s2) => mapDefLoop f c bs2 s2 (acc ++ [(key, val)])
termination_by structural fuel

end

/-- The real value represented by a finite IEEE-754 half-precision bit
pattern (0 for the exponent-31 patterns, which denote infinity or NaN and
carry no finite value). -/
def f16ValQ (bits : Nat) : ℚ :=
  let sign : ℚ := if (bits >>> 15) &&& 1 = 1 then -1 else 1
  let exp := (bits >>> 10) &&& 0x1F
  let mant := bits &&& 0x3FF
  if exp = 31 then 0
  else if exp = 0 then sign * mant * 2 / 2 ^ 25
  else sign * (1024 + mant) * 2 ^ exp / 2 ^ 25

/-- The real value represented by a finite IEEE-754 single-precision bit
pattern (0 for the exponent-255 patterns). -/
def f32ValQ (bits : Nat) : ℚ :=
  let sign : ℚ := if (bits >>> 31) &&& 1 = 1 then -1 else 1
  let exp := (bits >>> 23) &&& 0xFF
  let mant := bits &&& 0x7FFFFF
  if exp = 255 then 0
  else if exp = 0 then sign * mant * 2 / 2 ^ 150
  else sign * (2 ^ 23 + mant) * 2 ^ exp / 2 ^ 150

/-- Translation of an ASN.1 dumper state by constant amounts: the ambient
position / error / warning counters an engine run starts from. -/
def shiftA (k j m : Nat) (s : Asn1St) : Asn1St :=
  ⟨k + s.fPos, j + s.noErrors, m + s.noWarnings⟩

/-- Translation of a CBOR dumper state by constant amounts. -/
def shiftC (k j m : Nat) (s : CborSt) : CborSt :=
  ⟨k + s.offset, j + s.noErrors, m + s.noWarnings⟩

/-- The header `get_item` produces for the bytes `30 80`: an
indefinite-length SEQUENCE. -/
def seqIndefItem : Asn1Item := ⟨0x20, 0x10, 0, true, false, [0x30, 0x80], 2⟩

/-- Recogniser for the clean end-of-stream result of the ASN.1 header
reader. -/
def isCleanEof (r : Except DecErr (Option Asn1Item × List Nat × Asn1St)) : Bool :=
  match r with
  | .ok (none, _, _) => true
  | _ => false

theorem readExact_ok (n : Nat) (bs : List Nat) (h : n ≤ bs.length) :
    readExact n bs = .ok (bs.take n, bs.drop n) := by
  simp [readExact, h]

theorem readExact_err (n : Nat) (bs : List Nat) (h : bs.length < n) :
    readExact n bs = .error .truncated := by
  simp only [readExact, if_neg (by omega : ¬ n ≤ bs.length)]

theorem dumpHex_spec (pa : Bool) (len : Int) (bs : List Nat) (s : Asn1St)
    (h0 : 0 ≤ len) :
    (len.toNat ≤ bs.length →
      dumpHex pa len bs s =
        .ok (bs.drop len.toNat, { s with fPos := s.fPos + len.toNat })) ∧
    (bs.length < len.toNat → dumpHex pa len bs s = .error .truncated) := by
  cases pa with
  | true =>
    constructor
    · intro hav
      simp only [dumpHex, if_true, if_neg (by omega : ¬ len < 0),
        readExact_ok len.toNat bs hav]
      simp
    · intro hsh
      simp only [dumpHex, if_true, if_neg (by omega : ¬ len < 0),
        readExact_err len.toNat bs hsh]
  | false =>
    by_cases hsm : len ≤ 384
    · have hm : min len 384 = len := by omega
      constructor
      · intro hav
        simp only [dumpHex, Bool.false_eq_true, if_false, hm,
          if_neg (by omega : ¬ len < 0), readExact_ok len.toNat bs hav]
        simp only [if_neg (by simp : ¬ (len < len ∧ ¬ False))]
      · intro hsh
        simp only [dumpHex, Bool.false_eq_true, if_false, hm,
          if_neg (by omega : ¬ len < 0), readExact_err len.toNat bs hsh]
    · have hm : min len 384 = 384 := by omega
      have h384 : (384 : Int).toNat = 384 := by rfl
      constructor
      · intro hav
        have h1 : 384 ≤ bs.length := by omega
        simp only [dumpHex, Bool.false_eq_true, if_false, hm,
          if_neg (by omega : ¬ (384 : Int) < 0), h384,
          readExact_ok 384 bs h1]
        rw [if_pos (by constructor; omega; simp)]
        rw [readExact_ok (len - 384).toNat (bs.drop 384)
          (by simp only [List.length_drop]; omega)]
        simp only [List.drop_drop]
        have harith : 384 + (len - 384).toNat = len.toNat := by omega
        rw [harith]
      · intro hsh
        by_cases h1 : 384 ≤ bs.length
        · simp only [dumpHex, Bool.false_eq_true, if_false, hm,
            if_neg (by omega : ¬ (384 : Int) < 0), h384,
            readExact_ok 384 bs h1]
          rw [if_pos (by constructor; omega; simp)]
          rw [readExact_err (len - 384).toNat (bs.drop 384)
            (by simp only [List.length_drop]; omega)]
        · simp only [dumpHex, Bool.false_eq_true, if_false, hm,
            if_neg (by omega : ¬ (384 : Int) < 0), h384,
            readExact_err 384 bs (by omega)]

theorem printString_spec (pa : Bool) (len : Int) (bs : List Nat) (s : Asn1St)
    (h0 : 0 ≤ len) :
    (len.toNat ≤ bs.length →
      printString pa len bs s =
        .ok (bs.drop len.toNat, { s with fPos := s.fPos + len.toNat })) ∧
    (bs.length < len.toNat → printString pa len bs s = .error .truncated) := by
  have hsame : printString pa len bs s = dumpHex pa len bs s := by
    simp only [printString, dumpHex]
  simp only [hsame]
  exact dumpHex_spec pa len bs s h0

theorem printInteger_spec (pa : Bool) (len : Int) (bs : List Nat) (s : Asn1St)
    (h0 : 1 ≤ len) :
    (len.toNat ≤ bs.length →
      ∃ out, printInteger pa len bs s =
        .ok (out, bs.drop len.toNat, { s with fPos := s.fPos + len.toNat })) ∧
    (bs.length < len.toNat → printInteger pa len bs s = .error .truncated) := by
  by_cases hbig : 8 < len
  · obtain ⟨hok, herr⟩ := dumpHex_spec pa len bs s (by omega)
    constructor
    · intro hav
      refine ⟨.hexData, ?_⟩
      simp only [printInteger, if_pos hbig, hok hav]
    · intro hsh
      simp only [printInteger, if_pos hbig, herr hsh]
  · constructor
    · intro hav
      have hlen : (bs.take len.toNat).length = len.toNat := by
        simp only [List.length_take]; omega
      simp only [printInteger, if_neg hbig, readExact_ok len.toNat bs hav]
      rcases hne : bs.take len.toNat with _ | ⟨b0, tl⟩
      · exfalso
        rw [hne] at hlen
        simp at hlen
        omega
      · exact ⟨_, rfl⟩
    · intro hsh
      simp only [printInteger, if_neg hbig, readExact_err len.toNat bs hsh]

theorem printOid_spec (len : Int) (bs : List Nat) (s : Asn1St) :
    (len.toNat ≤ bs.length →
      printOid len bs s =
        .ok (.oidData, bs.drop len.toNat, { s with fPos := s.fPos + len.toNat })) ∧
    (bs.length < len.toNat → printOid len bs s = .error .truncated) := by
  constructor
  · intro hav
    simp only [printOid, readExact_ok len.toNat bs hav]
    by_cases hemp : (bs.take len.toNat).isEmpty
    · have hz : len.toNat = 0 := by
        rcases Nat.eq_zero_or_pos len.toNat with h | h
        · exact h
        · exfalso
          rw [List.isEmpty_iff] at hemp
          have : (bs.take len.toNat).length = len.toNat := by
            simp only [List.length_take]; omega
          rw [hemp] at this
          simp at this
          omega
      simp [hemp, hz]
    · simp [hemp]
  · intro hsh
    simp only [printOid, readExact_err len.toNat bs hsh]

theorem readTagLoop_spec :
    ∀ (bs header : List Nat) (tagNum : Nat) (s : Asn1St)
      (header1 : List Nat) (tagNum1 : Nat) (rest1 : List Nat) (s1 : Asn1St),
      readTagLoop bs header tagNum s = .ok (header1, tagNum1, rest1, s1) →
      ∃ k, 1 ≤ k ∧ header1.length = header.length + k ∧
        bs.length = k + rest1.length ∧ s1.fPos = s.fPos + k ∧
        s1.noErrors = s.noErrors ∧ s1.noWarnings = s.noWarnings := by
  intro bs
  induction bs with
  | nil =>
    intro header tagNum s header1 tagNum1 rest1 s1 h
    exact absurd h (by simp [readTagLoop])
  | cons b rest ih =>
    intro header tagNum s header1 tagNum1 rest1 s1 h
    unfold readTagLoop at h
    dsimp only at h
    by_cases hc : b &&& 0x80 = 0 ∨ 5 ≤ (header ++ [b]).length
    · rw [if_pos hc] at h
      injection h with h'
      injection h' with e1 h'
      injection h' with e2 h'
      injection h' with e3 e4
      refine ⟨1, le_refl 1, ?_, ?_, ?_, ?_, ?_⟩
      · rw [← e1]; simp only [List.length_append, List.length_cons, List.length_nil]
      · rw [← e3]; simp only [List.length_cons]; omega
      · rw [← e4]
      · rw [← e4]
      · rw [← e4]
    · rw [if_neg hc] at h
      obtain ⟨k, hk1, hk2, hk3, hk4, hk5, hk6⟩ := ih _ _ _ _ _ _ _ h
      simp only [List.length_append, List.length_cons, List.length_nil] at hk2 hk3
      dsimp only at hk4 hk5 hk6
      refine ⟨k + 1, by omega, ?_, ?_, ?_, ?_, ?_⟩
      · omega
      · simp only [List.length_cons]; omega
      · omega
      · rw [hk5]
      · rw [hk6]

theorem readLenBytes_spec :
    ∀ (n : Nat) (bs header : List Nat) (acc len : Nat) (header2 bs3 : List Nat),
      readLenBytes bs n header acc = .ok (len, header2, bs3) →
      header2.length = header.length + n ∧ bs.length = n + bs3.length := by
  intro n
  induction n with
  | zero =>
    intro bs header acc len header2 bs3 h
    unfold readLenBytes at h
    injection h with h'
    injection h' with e1 h'
    injection h' with e2 e3
    rw [← e2, ← e3]
    omega
  | succ m ih =>
    intro bs header acc len header2 bs3 h
    cases bs with
    | nil => exact absurd h (by simp [readLenBytes])
    | cons b rest =>
      unfold readLenBytes at h
      obtain ⟨h1, h2⟩ := ih _ _ _ _ _ _ h
      simp only [List.length_append, List.length_cons, List.length_nil] at h1 h2
      constructor
      · omega
      · simp only [List.length_cons]; omega

theorem getItem_headerSize :
    ∀ (bs : List Nat) (s : Asn1St) (it : Asn1Item) (r : List Nat) (t : Asn1St),
      getItem bs s = .ok (some it, r, t) →
      t.fPos = s.fPos + it.headerSize ∧ bs.length = it.headerSize + r.length ∧
        t.noErrors = s.noErrors ∧ t.noWarnings = s.noWarnings := by
  intro bs s it r t h
  cases bs with
  | nil => exact absurd h (by simp [getItem])
  | cons b rest =>
    unfold getItem at h
    dsimp only at h
    rcases htl : (if b &&& 0x1F = 0x1F then readTagLoop rest [b] 0 s
        else .ok ([b], b &&& 0x1F, rest, s)) with e | ⟨header, tagNum, bs1, s1⟩
    · rw [htl] at h; exact absurd h (by simp)
    · rw [htl] at h
      have hhead : 1 + rest.length = header.length + bs1.length ∧
          s1.fPos + 1 = s.fPos + header.length ∧ 1 ≤ header.length ∧
          s1.noErrors = s.noErrors ∧ s1.noWarnings = s.noWarnings := by
        by_cases hb : b &&& 0x1F = 0x1F
        · rw [if_pos hb] at htl
          obtain ⟨k, hk1, hk2, hk3, hk4, hk5, hk6⟩ :=
            readTagLoop_spec rest [b] 0 s header tagNum bs1 s1 htl
          simp only [List.length_cons, List.length_nil] at hk2
          refine ⟨by omega, by omega, by omega, hk5, hk6⟩
        · rw [if_neg hb] at htl
          injection htl with h'
          injection h' with e1 h'
          injection h' with e2 h'
          injection h' with e3 e4
          subst e3
          obtain rfl : header = [b] := e1.symm
          obtain rfl : s1 = s := e4.symm
          refine ⟨?_, ?_, ?_, rfl, rfl⟩
          · simp only [List.length_cons, List.length_nil]
          · simp only [List.length_cons, List.length_nil]
          · simp only [List.length_cons, List.length_nil]; omega
      obtain ⟨hh1, hh2, hh3, hh4, hh5⟩ := hhead
      cases bs1 with
      | nil => exact absurd h (by simp)
      | cons lenB bs2 =>
        dsimp only at h
        simp only [List.length_cons] at hh1
        by_cases hx : lenB &&& 0x80 ≠ 0
        · rw [if_pos hx] at h
          by_cases hz : lenB &&& 0x7F = 0
          · rw [if_pos hz] at h
            injection h with h'
            injection h' with e1 h'
            injection h' with e2 e3
            injection e1 with e1'
            subst e1'
            subst e2
            obtain rfl : t = _ := e3.symm
            refine ⟨?_, ?_, hh4, hh5⟩
            · dsimp only
              simp only [List.length_append, List.length_cons, List.length_nil]
              omega
            · dsimp only
              simp only [List.length_append, List.length_cons, List.length_nil]
              omega
          · rw [if_neg hz] at h
            by_cases hg : 4 < lenB &&& 0x7F
            · rw [if_pos hg] at h; exact absurd h (by simp)
            · rw [if_neg hg] at h
              rcases hlb : readLenBytes bs2 (lenB &&& 0x7F) (header ++ [lenB]) 0 with
                e | ⟨len, header2, bs3⟩
              · rw [hlb] at h; exact absurd h (by simp)
              · rw [hlb] at h
                obtain ⟨hl1, hl2⟩ := readLenBytes_spec _ _ _ _ _ _ _ hlb
                simp only [List.length_append, List.length_cons, List.length_nil]
                  at hl1 hl2
                injection h with h'
                injection h' with e1 h'
                injection h' with e2 e3
                injection e1 with e1'
                subst e1'
                subst e2
                obtain rfl : t = _ := e3.symm
                refine ⟨?_, ?_, hh4, hh5⟩
                · dsimp only
                  omega
                · dsimp only
                  simp only [List.length_cons]
                  omega
        · rw [if_neg hx] at h
          injection h with h'
          injection h' with e1 h'
          injection h' with e2 e3
          injection e1 with e1'
          subst e1'
          subst e2
          obtain rfl : t = _ := e3.symm
          refine ⟨?_, ?_, hh4, hh5⟩
          · dsimp only
            simp only [List.length_append, List.length_cons, List.length_nil]
            omega
          · dsimp only
            simp only [List.length_append, List.length_cons, List.length_nil]
            omega

/-- C1 (amended): for a definite-length primitive unit whose tag is not
BOOLEAN or NULL (and whose length is at least 1 for INTEGER, ENUMERATED and
BIT STRING), decoding with the payload fully available consumes exactly
`length` bytes and advances Position by exactly `length`; with fewer than
`length` bytes available it fails with `truncated` rather than silently
accepting a short payload. -/
theorem c1_defLen_payload_exact
    (fuel : Nat) (cfg : Config) (bs : List Nat) (s : Asn1St) (item : Asn1Item)
    (level : Nat)
    (hlev : level ≤ cfg.maxNestLevel)
    (hprim : item.id &&& 0x20 ≠ 0x20)
    (hpos : 0 ≤ item.length)
    (hbool : item.tag ≠ BOOLEAN)
    (hnull : item.tag ≠ NULLTAG)
    (hlen1 : item.tag = INTEGER ∨ item.tag = ENUMERATED ∨ item.tag = BITSTRING →
      1 ≤ item.length) :
    ((item.length.toNat ≤ bs.length →
      ∃ out, printAsn1Object (fuel + 1) cfg bs s item level =
        .ok (out, bs.drop item.length.toNat,
             { s with fPos := s.fPos + item.length.toNat })) ∧
    (bs.length < item.length.toNat →
      printAsn1Object (fuel + 1) cfg bs s item level = .error .truncated)) ∧
    (∀ (bs0 : List Nat) (s0 : Asn1St) (it : Asn1Item) (r : List Nat) (t : Asn1St),
      getItem bs0 s0 = .ok (some it, r, t) →
      t.fPos = s0.fPos + it.headerSize ∧ bs0.length = it.headerSize + r.length) := by
  refine ⟨?_, fun bs0 s0 it r t hh =>
    ⟨(getItem_headerSize bs0 s0 it r t hh).1, (getItem_headerSize bs0 s0 it r t hh).2.1⟩⟩
  unfold printAsn1Object
  rw [if_neg (by omega : ¬ cfg.maxNestLevel < level), if_neg hprim, if_neg hbool]
  by_cases h2 : item.tag = INTEGER ∨ item.tag = ENUMERATED
  · rw [if_pos h2]
    exact printInteger_spec cfg.printAllData item.length bs s (hlen1 (by tauto))
  rw [if_neg h2]
  by_cases h3 : item.tag = BITSTRING
  · rw [if_pos h3]
    have hl1 : 1 ≤ item.length := hlen1 (Or.inr (Or.inr h3))
    constructor
    · intro hav
      cases bs with
      | nil => exfalso; simp at hav; omega
      | cons b bs1 =>
        obtain ⟨hok, _⟩ := dumpHex_spec cfg.printAllData (item.length - 1) bs1
          { s with fPos := s.fPos + 1 } (by omega)
        have hav1 : (item.length - 1).toNat ≤ bs1.length := by
          simp at hav; omega
        dsimp only
        rw [hok hav1]
        have hsplit : item.length.toNat = (item.length - 1).toNat + 1 := by omega
        rw [hsplit, List.drop_succ_cons]
        have heq : s.fPos + 1 + (item.length - 1).toNat =
            s.fPos + ((item.length - 1).toNat + 1) := by omega
        exact ⟨.bitStr, by rw [heq]⟩
    · intro hsh
      cases bs with
      | nil => rfl
      | cons b bs1 =>
        obtain ⟨_, herr⟩ := dumpHex_spec cfg.printAllData (item.length - 1) bs1
          { s with fPos := s.fPos + 1 } (by omega)
        dsimp only
        rw [herr (by simp at hsh; omega)]
  rw [if_neg h3]
  by_cases h4 : item.tag = OCTETSTRING
  · rw [if_pos h4]
    split
    · obtain ⟨hok, herr⟩ := printString_spec cfg.printAllData item.length bs s hpos
      exact ⟨fun hav => by rw [hok hav]; exact ⟨.strData, rfl⟩,
             fun hsh => by rw [herr hsh]⟩
    · obtain ⟨hok, herr⟩ := dumpHex_spec cfg.printAllData item.length bs s hpos
      exact ⟨fun hav => by rw [hok hav]; exact ⟨.hexData, rfl⟩,
             fun hsh => by rw [herr hsh]⟩
  rw [if_neg h4, if_neg hnull]
  by_cases h6 : item.tag = OID
  · rw [if_pos h6]
    obtain ⟨hok, herr⟩ := printOid_spec item.length bs s
    exact ⟨fun hav => ⟨.oidData, hok hav⟩, fun hsh => herr hsh⟩
  rw [if_neg h6]
  by_cases h7 : item.tag = UTF8STRING ∨ item.tag = PRINTABLESTRING ∨
      item.tag = IA5STRING ∨ item.tag = VISIBLESTRING ∨
      item.tag = GENERALSTRING ∨ item.tag = NUMERICSTRING ∨
      item.tag = T61STRING ∨ item.tag = VIDEOTEXSTRING
  · rw [if_pos h7]
    obtain ⟨hok, herr⟩ := printString_spec cfg.printAllData item.length bs s hpos
    exact ⟨fun hav => by rw [hok hav]; exact ⟨.strData, rfl⟩,
           fun hsh => by rw [herr hsh]⟩
  rw [if_neg h7]
  by_cases h8 : item.tag = UTCTIME ∨ item.tag = GENERALIZEDTIME
  · rw [if_pos h8]
    obtain ⟨hok, herr⟩ := printString_spec cfg.printAllData item.length bs s hpos
    exact ⟨fun hav => by rw [hok hav]; exact ⟨.strData, rfl⟩,
           fun hsh => by rw [herr hsh]⟩
  rw [if_neg h8]
  by_cases h9 : item.tag = BMPSTRING ∨ item.tag = UNIVERSALSTRING
  · rw [if_pos h9]
    obtain ⟨hok, herr⟩ := printString_spec cfg.printAllData item.length bs s hpos
    exact ⟨fun hav => by rw [hok hav]; exact ⟨.strData, rfl⟩,
           fun hsh => by rw [herr hsh]⟩
  rw [if_neg h9]
  obtain ⟨hok, herr⟩ := dumpHex_spec cfg.printAllData item.length bs s hpos
  exact ⟨fun hav => by rw [hok hav]; exact ⟨.hexData, rfl⟩,
         fun hsh => by rw [herr hsh]⟩


/-- C1 counterexample: in `30 03 04 04 AA BB CC DD` the nested OCTET STRING
header declares 4 payload bytes although only 1 remains inside the parent's
declared 3-byte payload.  The engine decodes it anyway: the child consumes 6
bytes, Position ends at 8 (3 past the parent's declared end), and the whole
decode succeeds with zero errors — no `ChildOverrunsParent` or `Truncated`
is ever raised, contradicting the claim. -/
theorem c1_counterexample :
    dumpAsn1 20 defaultConfig [0x30, 0x03, 0x04, 0x04, 0xAA, 0xBB, 0xCC, 0xDD]
      ⟨0, 0, 0⟩ = .ok ([.constructed [.strData]], [], ⟨8, 0, 0⟩) := rfl

/-- Witness for the amended C1 theorem: an OCTET STRING of length 2 decoded
at Position 2 consumes exactly its 2 payload bytes. -/
theorem c1_defLen_payload_exact_witness :
    ∃ out, printAsn1Object 6 defaultConfig [0x41, 0x42] ⟨2, 0, 0⟩
      ⟨0x00, 0x04, 2, false, false, [0x04, 0x02], 2⟩ 0 =
      .ok (out, [], ⟨4, 0, 0⟩) :=
  (c1_defLen_payload_exact 5 defaultConfig [0x41, 0x42] ⟨2, 0, 0⟩
      ⟨0x00, 0x04, 2, false, false, [0x04, 0x02], 2⟩ 0 (by decide) (by decide)
      (by decide) (by decide) (by decide) (by decide)).1.1 (by decide)

/-- C2 counterexample: with `max_nest_level = 0`, decoding
`30 03 02 01 05` reads the nested INTEGER's header but returns without
consuming its declared 1-byte payload, so the parent loop misparses the
payload byte `05` as a fresh tag and the decode fails with `truncated` —
the cutoff neither skips the declared payload nor avoids a fatal error,
contradicting the claim. -/
theorem c2_counterexample :
    dumpAsn1 20 { defaultConfig with maxNestLevel := 0 }
      [0x30, 0x03, 0x02, 0x01, 0x05] ⟨0, 0, 0⟩ = .error .truncated := rfl

/-- C2 (amended): beyond the nesting cutoff the ASN.1 engine returns a
placeholder immediately without error and without materialising children,
but it consumes *nothing* — for a Definite header the declared payload is
not skipped, so Position is left at the start of the undecoded payload. -/
theorem c2_nesting_cutoff (fuel : Nat) (cfg : Config) (bs : List Nat)
    (s : Asn1St) (item : Asn1Item) (level : Nat)
    (h : cfg.maxNestLevel < level) :
    printAsn1Object (fuel + 1) cfg bs s item level = .ok (.skipped, bs, s) := by
  unfold printAsn1Object
  rw [if_pos h]

/-- Witness for the amended C2 theorem. -/
theorem c2_nesting_cutoff_witness :
    ({ defaultConfig with maxNestLevel := 0 } : Config).maxNestLevel < 1 ∧
    printAsn1Object 1 { defaultConfig with maxNestLevel := 0 } [0x02, 0x01]
      ⟨3, 1, 2⟩ ⟨0x00, 0x02, 1, false, false, [0x02, 0x01], 2⟩ 1 =
      .ok (.skipped, [0x02, 0x01], ⟨3, 1, 2⟩) :=
  ⟨by decide, c2_nesting_cutoff 0 { defaultConfig with maxNestLevel := 0 }
    [0x02, 0x01] ⟨3, 1, 2⟩ ⟨0x00, 0x02, 1, false, false, [0x02, 0x01], 2⟩ 1
    (by decide)⟩

/-- C3 counterexample: `30 80` starts an indefinite-length SEQUENCE and the
stream then ends cleanly before any end-of-contents sentinel; the decode
returns success with zero errors instead of the `Truncated` the claim
requires. -/
theorem c3_counterexample :
    dumpAsn1 20 defaultConfig [0x30, 0x80] ⟨0, 0, 0⟩ =
      .ok ([.constructed []], [], ⟨2, 0, 0⟩) := rfl

theorem getItem_nullByte (tail : List Nat) (s : Asn1St) :
    getItem (0x05 :: 0x00 :: tail) s =
      .ok (some ⟨0, 5, 0, false, false, [0x05, 0x00], 2⟩, tail,
           { s with fPos := s.fPos + 2 }) := rfl

theorem printAsn1Object_null (f : Nat) (tail : List Nat) (s : Asn1St) :
    printAsn1Object (f + 1) defaultConfig tail s
      ⟨0, 5, 0, false, false, [0x05, 0x00], 2⟩ 1 = .ok (.nullVal, tail, s) := rfl

theorem indefLoop_nulls :
    ∀ (n fuel : Nat) (s : Asn1St) (acc : List Asn1Out), n + 1 ≤ fuel →
      indefLoop fuel defaultConfig ((List.replicate n [0x05, 0x00]).flatten) s 0 acc =
        .ok (acc ++ List.replicate n .nullVal, [],
             { s with fPos := s.fPos + 2 * n }) := by
  intro n
  induction n with
  | zero =>
    intro fuel s acc hf
    obtain ⟨f, rfl⟩ : ∃ f, fuel = f + 1 := ⟨fuel - 1, by omega⟩
    simp [indefLoop, getItem]
  | succ m ih =>
    intro fuel s acc hf
    obtain ⟨f, rfl⟩ : ∃ f, fuel = f + 1 := ⟨fuel - 1, by omega⟩
    rw [List.replicate_succ, List.flatten_cons]
    show indefLoop (f + 1) defaultConfig
      (0x05 :: 0x00 :: (List.replicate m [0x05, 0x00]).flatten) s 0 acc = _
    unfold indefLoop
    rw [getItem_nullByte]
    dsimp only
    rw [if_neg (by decide)]
    obtain ⟨g, rfl⟩ : ∃ g, f = g + 1 := ⟨f - 1, by omega⟩
    rw [printAsn1Object_null]
    dsimp only
    rw [ih (g + 1) _ _ (by omega)]
    rw [List.append_assoc]
    simp only [List.singleton_append, ← List.replicate_succ]
    have : s.fPos + 2 + 2 * m = s.fPos + 2 * (m + 1) := by omega
    rw [this]

/-- C3 (amended): indefinite-length aggregation always terminates — here on
an arbitrarily long sentinel-free stream of valid sibling units (`n` NULLs)
followed by clean end-of-stream — but the result is a successfully decoded
aggregate of the children read so far, with Position exact and zero errors,
not the `Truncated` error the original claim requires. -/
theorem c3_indefinite_terminates :
    ∀ (n fuel : Nat) (s : Asn1St), n + 3 ≤ fuel →
      printAsn1Object fuel defaultConfig ((List.replicate n [0x05, 0x00]).flatten) s
        seqIndefItem 0 =
        .ok (.constructed (List.replicate n .nullVal), [],
             { s with fPos := s.fPos + 2 * n }) := by
  intro n fuel s hf
  obtain ⟨f, rfl⟩ : ∃ f, fuel = f + 1 := ⟨fuel - 1, by omega⟩
  unfold printAsn1Object
  rw [if_neg (by decide), if_pos (by decide)]
  obtain ⟨g, rfl⟩ : ∃ g, f = g + 1 := ⟨f - 1, by omega⟩
  unfold printConstructed
  rw [if_neg (by decide), if_pos (by decide)]
  rw [indefLoop_nulls n g s [] (by omega)]
  simp only [List.nil_append]

/-- Witness for the amended C3 theorem: two NULL children, clean EOF. -/
theorem c3_indefinite_terminates_witness :
    2 + 3 ≤ 10 ∧
    printAsn1Object 10 defaultConfig ((List.replicate 2 [0x05, 0x00]).flatten)
      ⟨0, 0, 0⟩ seqIndefItem 0 =
      .ok (.constructed (List.replicate 2 .nullVal), [], ⟨4, 0, 0⟩) :=
  ⟨by decide, c3_indefinite_terminates 2 10 ⟨0, 0, 0⟩ (by decide)⟩

/-- C4 counterexample: `30 05 02 01 07` declares a 5-byte SEQUENCE payload
but the stream ends after 3 payload bytes; the definite-length child loop
hits the clean-EOF `None` of `get_item` and exits silently, so the decode
succeeds with zero errors instead of raising `Truncated` for an EOF partway
through a declared payload. -/
theorem c4_counterexample :
    dumpAsn1 20 defaultConfig [0x30, 0x05, 0x02, 0x01, 0x07] ⟨0, 0, 0⟩ =
      .ok ([.constructed [.intVal 7]], [], ⟨5, 0, 0⟩) := rfl

/-- C4 (amended): both header readers return `none` only when zero bytes are
available at a unit boundary (never on nonempty input), and EOF partway
through a header is `truncated` (shown in general for a one-byte ASN.1
input, and for the CBOR initial byte `18` whose 1-byte extension is
missing).  The original claim's further promise — that EOF partway through a
declared payload is always `Truncated` — fails for definite constructed
payloads (see the counterexample). -/
theorem c4_header_reader_eof :
    (∀ s : Asn1St, getItem [] s = .ok (none, [], s)) ∧
    (∀ (b : Nat) (s : Asn1St), getItem [b] s = .error .truncated) ∧
    (∀ (b : Nat) (bs : List Nat) (s : Asn1St),
      isCleanEof (getItem (b :: bs) s) = false) ∧
    (∀ (fuel : Nat) (s : CborSt), readItem (fuel + 1) [] s = .ok (none, [], s)) ∧
    (∀ (fuel : Nat) (s : CborSt),
      readItem (fuel + 1) [0x18] s = .error .truncated) := by
  refine ⟨fun s => rfl, ?_, ?_, fun fuel s => rfl, fun fuel s => rfl⟩
  · intro b s
    unfold getItem
    dsimp only
    by_cases hb : b &&& 0x1F = 0x1F
    · rw [if_pos hb]
      rfl
    · rw [if_neg hb]
  · intro b bs s
    unfold getItem
    dsimp only
    rcases htl : (if b &&& 0x1F = 0x1F then readTagLoop bs [b] 0 s
        else .ok ([b], b &&& 0x1F, bs, s)) with e | ⟨header, tagNum, bs1, s1⟩
    · rfl
    · cases bs1 with
      | nil => rfl
      | cons lenB bs2 =>
        dsimp only
        by_cases hx : lenB &&& 0x80 ≠ 0
        · rw [if_pos hx]
          by_cases hz : lenB &&& 0x7F = 0
          · rw [if_pos hz]; rfl
          · rw [if_neg hz]
            by_cases hg : 4 < lenB &&& 0x7F
            · rw [if_pos hg]; rfl
            · rw [if_neg hg]
              rcases hlb : readLenBytes bs2 (lenB &&& 0x7F) (header ++ [lenB]) 0
                with e | ⟨len, h2, b3⟩
              · rfl
              · rfl
        · rw [if_neg hx]; rfl

/-- Witness for the amended C4 theorem: a lone `30` byte (tag read, length
byte missing) is a truncated header, not a clean EOF. -/
theorem c4_header_reader_eof_witness :
    getItem [0x30] ⟨0, 0, 0⟩ = .error .truncated ∧
    readItem 4 [0x18] ⟨0, 0, 0⟩ = .error .truncated :=
  ⟨c4_header_reader_eof.2.1 0x30 ⟨0, 0, 0⟩,
   c4_header_reader_eof.2.2.2.2 3 ⟨0, 0, 0⟩⟩

/-- C5 counterexample: the high-tag-number encoding `1F 82 00` encodes tag
number 256, but `get_item` stores the tag through `as u8`, so the decoded
item reports tag 0 — the classification does not preserve tag numbers up to
32 bits (here the item even becomes indistinguishable from an
end-of-contents unit). -/
theorem c5_counterexample :
    getItem [0x1F, 0x82, 0x00, 0x00] ⟨0, 0, 0⟩ =
      .ok (some ⟨0, 0, 0, false, false, [0x1F, 0x82, 0x00, 0x00], 4⟩, [],
           ⟨4, 0, 0⟩) := rfl

theorem readTagLoop_step (b : Nat) (rest header : List Nat) (tagNum : Nat)
    (s : Asn1St) (hb : b &&& 0x80 ≠ 0) (hlen : (header ++ [b]).length < 5) :
    readTagLoop (b :: rest) header tagNum s =
      readTagLoop rest (header ++ [b]) ((tagNum <<< 7) ||| (b &&& 0x7F))
        { s with fPos := s.fPos + 1 } := by
  conv_lhs => unfold readTagLoop
  dsimp only
  rw [if_neg (by push_neg; exact ⟨hb, by omega⟩)]

theorem readTagLoop_last (b : Nat) (rest header : List Nat) (tagNum : Nat)
    (s : Asn1St) (hlen : 5 ≤ (header ++ [b]).length) :
    readTagLoop (b :: rest) header tagNum s =
      .ok (header ++ [b], (tagNum <<< 7) ||| (b &&& 0x7F), rest,
           { s with fPos := s.fPos + 1 }) := by
  conv_lhs => unfold readTagLoop
  dsimp only
  rw [if_pos (Or.inr hlen)]

/-- C5 (amended): the high-tag-number loop accumulates at most 4
continuation bytes of 7 tag bits each and then stops even if the fourth
continuation byte still has its continuation bit set — exceeding the cap is
not a `TagTooLong` error; the next byte is simply parsed as the length.  The
accumulated (up to 28-bit) tag number is stored through `as u8`, keeping
only its low 8 bits. -/
theorem c5_high_tag_form (c1 c2 c3 c4 lenB : Nat) (rest : List Nat)
    (s : Asn1St) (h1 : c1 &&& 0x80 ≠ 0) (h2 : c2 &&& 0x80 ≠ 0)
    (h3 : c3 &&& 0x80 ≠ 0) (_h4 : c4 &&& 0x80 ≠ 0) (hlen : lenB &&& 0x80 = 0) :
    getItem (0x1F :: c1 :: c2 :: c3 :: c4 :: lenB :: rest) s =
      .ok (some ⟨0,
            (((((c1 &&& 0x7F) <<< 7 ||| (c2 &&& 0x7F)) <<< 7 |||
               (c3 &&& 0x7F)) <<< 7 ||| (c4 &&& 0x7F)) % 256),
            (lenB : Int), false, false, [0x1F, c1, c2, c3, c4, lenB], 6⟩,
           rest, { s with fPos := s.fPos + 6 }) := by
  unfold getItem
  dsimp only
  rw [if_pos (by decide)]
  rw [readTagLoop_step c1 _ _ _ _ h1 (by simp),
      readTagLoop_step c2 _ _ _ _ h2 (by simp),
      readTagLoop_step c3 _ _ _ _ h3 (by simp),
      readTagLoop_last c4 _ _ _ _ (by simp)]
  dsimp only
  rw [if_neg (by simp [hlen])]
  have htag : ((((0 <<< 7 ||| (c1 &&& 0x7F)) <<< 7 ||| (c2 &&& 0x7F)) <<< 7 |||
      (c3 &&& 0x7F)) <<< 7 ||| (c4 &&& 0x7F)) =
      ((((c1 &&& 0x7F) <<< 7 ||| (c2 &&& 0x7F)) <<< 7 |||
        (c3 &&& 0x7F)) <<< 7 ||| (c4 &&& 0x7F)) := by
    simp [Nat.zero_shiftLeft, Nat.zero_or]
  rw [htag]
  have hpos : s.fPos + 1 + 1 + 1 + 1 + 2 = s.fPos + 6 := by omega
  simp only [List.append_assoc, List.singleton_append, List.cons_append,
    List.nil_append]
  rw [hpos]
  rfl

/-- Witness for the amended C5 theorem: five continuation bytes `81`, all
with the continuation bit set; the loop stops after four of them, parses
`00` as the length, reports tag `2113665 % 256 = 129`, and raises no error. -/
theorem c5_high_tag_form_witness :
    (0x81 &&& 0x80 ≠ 0) ∧ (0x00 &&& 0x80 = 0) ∧
    getItem [0x1F, 0x81, 0x81, 0x81, 0x81, 0x00] ⟨0, 0, 0⟩ =
      .ok (some ⟨0, 129, 0, false, false, [0x1F, 0x81, 0x81, 0x81, 0x81, 0x00], 6⟩,
           [], ⟨6, 0, 0⟩) :=
  ⟨by decide, by decide,
   c5_high_tag_form 0x81 0x81 0x81 0x81 0x00 [] ⟨0, 0, 0⟩ (by decide) (by decide)
     (by decide) (by decide) (by decide)⟩

/-- C6: the BOOLEAN payload reader of `print_asn1_object` reads exactly one
byte regardless of the declared length and never consults
`zero_length_allowed`.  First two conjuncts: the well-formed one-byte
BOOLEAN `01 01 FF` decodes to `true`.  Last two conjuncts: a zero-length
BOOLEAN followed by the byte `99` silently consumes that following byte and
decodes `true`, identically under both settings of the flag — not the
length error the claim (and the program's own `-z` help text) promises. -/
theorem c6_boolean_eval :
    (getItem [0x01, 0x01, 0xFF] ⟨0, 0, 0⟩ =
      .ok (some ⟨0, 1, 1, false, false, [0x01, 0x01], 2⟩, [0xFF], ⟨2, 0, 0⟩)) ∧
    (printAsn1Object 5 defaultConfig [0xFF] ⟨2, 0, 0⟩
      ⟨0, 1, 1, false, false, [0x01, 0x01], 2⟩ 0 =
      .ok (.boolVal true, [], ⟨3, 0, 0⟩)) ∧
    (printAsn1Object 5 defaultConfig [0x99] ⟨2, 0, 0⟩
      ⟨0, 1, 0, false, false, [0x01, 0x00], 2⟩ 0 =
      .ok (.boolVal true, [], ⟨3, 0, 0⟩)) ∧
    (printAsn1Object 5 { defaultConfig with zeroLengthAllowed := true } [0x99]
      ⟨2, 0, 0⟩ ⟨0, 1, 0, false, false, [0x01, 0x00], 2⟩ 0 =
      .ok (.boolVal true, [], ⟨3, 0, 0⟩)) :=
  ⟨rfl, rfl, rfl, rfl⟩

/-- C7 counterexample: the initial byte `1F` (major type 0, additional info
31) is accepted: `read_additional` returns the `u64::MAX` indefinite marker
and the item decodes as `Unsigned(u64::MAX)` — not the
`InvalidAdditionalInfo` failure the claim requires for additional-info 31
under major types other than 2..5 and 7. -/
theorem c7_counterexample :
    readItem 5 [0x1F] ⟨0, 0, 0⟩ =
      .ok (some (.mk 0 31 (.Unsigned (2 ^ 64 - 1))), [], ⟨1, 0, 0⟩) := rfl

/-- C7 (amended): additional-info 0..23 is the value directly, 24/25/26/27
read 1/2/4/8 big-endian bytes, 28..30 always fail with
`invalidAdditionalInfo`, and 31 is the indefinite marker for byte strings,
text strings, arrays and maps and the break sentinel under major type 7 —
but under major types 0, 1 and 6 the marker value `2^64 - 1` flows through
undetected, producing `Unsigned (2^64 - 1)`, `Negative 0` (`-1 - (-1)`) and
tag `2^64 - 1` respectively instead of an error. -/
theorem c7_additional_info :
    (∀ (ai : Nat) (bs : List Nat) (s : CborSt), ai ≤ 23 →
      readAdditional bs ai s = .ok (ai, bs, s)) ∧
    (∀ (b : Nat) (bs : List Nat) (s : CborSt),
      readAdditional (b :: bs) 24 s =
        .ok (beVal [b], bs, { s with offset := s.offset + 1 })) ∧
    (∀ (b1 b2 : Nat) (bs : List Nat) (s : CborSt),
      readAdditional (b1 :: b2 :: bs) 25 s =
        .ok (beVal [b1, b2], bs, { s with offset := s.offset + 2 })) ∧
    (∀ (b1 b2 b3 b4 : Nat) (bs : List Nat) (s : CborSt),
      readAdditional (b1 :: b2 :: b3 :: b4 :: bs) 26 s =
        .ok (beVal [b1, b2, b3, b4], bs, { s with offset := s.offset + 4 })) ∧
    (∀ (b1 b2 b3 b4 b5 b6 b7 b8 : Nat) (bs : List Nat) (s : CborSt),
      readAdditional (b1 :: b2 :: b3 :: b4 :: b5 :: b6 :: b7 :: b8 :: bs) 27 s =
        .ok (beVal [b1, b2, b3, b4, b5, b6, b7, b8], bs,
             { s with offset := s.offset + 8 })) ∧
    (∀ (ai : Nat) (bs : List Nat) (s : CborSt), 28 ≤ ai → ai ≠ 31 →
      readAdditional bs ai s = .error .invalidAdditionalInfo) ∧
    (∀ (bs : List Nat) (s : CborSt),
      readAdditional bs 31 s = .ok (2 ^ 64 - 1, bs, s)) ∧
    (readItem 5 [0x3F] ⟨0, 0, 0⟩ =
      .ok (some (.mk 1 31 (.Negative 0)), [], ⟨1, 0, 0⟩)) ∧
    (readItem 5 [0xDF, 0x00] ⟨0, 0, 0⟩ =
      .ok (some (.mk 6 31 (.Tag (2 ^ 64 - 1) (.mk 0 0 (.Unsigned 0)))), [],
           ⟨2, 0, 0⟩)) ∧
    (readItem 5 [0x9F, 0xFF] ⟨0, 0, 0⟩ =
      .ok (some (.mk 4 31 (.Array [])), [], ⟨2, 0, 0⟩)) := by
  refine ⟨?_, ?_, ?_, ?_, ?_, ?_, fun bs s => rfl, rfl, rfl, rfl⟩
  · intro ai bs s hai
    unfold readAdditional
    rw [if_pos hai]
  · intro b bs s
    unfold readAdditional
    rw [if_neg (by omega), if_pos rfl]
    have hre : readExactC 1 (b :: bs) = .ok ([b], bs) := by
      unfold readExactC
      rw [if_pos (by simp)]
      rfl
    rw [hre]
  · intro b1 b2 bs s
    unfold readAdditional
    rw [if_neg (by omega), if_neg (by omega), if_pos rfl]
    have hre : readExactC 2 (b1 :: b2 :: bs) = .ok ([b1, b2], bs) := by
      unfold readExactC
      rw [if_pos (by simp)]
      rfl
    rw [hre]
  · intro b1 b2 b3 b4 bs s
    unfold readAdditional
    rw [if_neg (by omega), if_neg (by omega), if_neg (by omega), if_pos rfl]
    have hre : readExactC 4 (b1 :: b2 :: b3 :: b4 :: bs) =
        .ok ([b1, b2, b3, b4], bs) := by
      unfold readExactC
      rw [if_pos (by simp)]
      rfl
    rw [hre]
  · intro b1 b2 b3 b4 b5 b6 b7 b8 bs s
    unfold readAdditional
    rw [if_neg (by omega), if_neg (by omega), if_neg (by omega),
        if_neg (by omega), if_pos rfl]
    have hre : readExactC 8 (b1 :: b2 :: b3 :: b4 :: b5 :: b6 :: b7 :: b8 :: bs) =
        .ok ([b1, b2, b3, b4, b5, b6, b7, b8], bs) := by
      unfold readExactC
      rw [if_pos (by simp)]
      rfl
    rw [hre]
  · intro ai bs s h28 h31
    unfold readAdditional
    rw [if_neg (by omega), if_neg (by omega), if_neg (by omega),
        if_neg (by omega), if_neg (by omega), if_neg h31]

/-- Witness for the amended C7 theorem. -/
theorem c7_additional_info_witness :
    (5 ≤ 23 ∧ readAdditional [0x41] 5 ⟨0, 0, 0⟩ = .ok (5, [0x41], ⟨0, 0, 0⟩)) ∧
    (28 ≤ 29 ∧ 29 ≠ 31 ∧
      readAdditional [0x41] 29 ⟨0, 0, 0⟩ = .error .invalidAdditionalInfo) :=
  ⟨⟨by decide, c7_additional_info.1 5 [0x41] ⟨0, 0, 0⟩ (by decide)⟩,
   by decide, by decide,
   c7_additional_info.2.2.2.2.2.1 29 [0x41] ⟨0, 0, 0⟩ (by decide) (by decide)⟩

/-- C8 counterexample: a nested indefinite-length byte-string chunk
(`5F 5F 41 01 FF FF`) is not rejected: the inner indefinite string is
recursively aggregated and its concatenated payload accepted as a chunk,
with success and zero errors — no `NestedIndefiniteChunk` error exists in
the code. -/
theorem c8_counterexample :
    readItem 10 [0x5F, 0x5F, 0x41, 0x01, 0xFF, 0xFF] ⟨0, 0, 0⟩ =
      .ok (some (.mk 2 31 (.Bytes [0x01])), [], ⟨6, 0, 0⟩) := rfl

/-- C8 (amended): indefinite byte-string aggregation concatenates
same-type definite chunks up to the break sentinel (`[41 01] [41 02] FF`
yields the single payload `01 02`); a chunk of a different major type (here
the text chunk `61 41`) increments the error counter and is dropped while
aggregation continues — it is recorded, not raised as a fatal
`ChunkTypeMismatch`. -/
theorem c8_chunk_aggregation :
    (∀ s : CborSt, readItem 10 [0x5F, 0x41, 0x01, 0x41, 0x02, 0xFF] s =
      .ok (some (.mk 2 31 (.Bytes [0x01, 0x02])), [],
           { s with offset := s.offset + 6 })) ∧
    (∀ s : CborSt, readItem 10 [0x5F, 0x61, 0x41, 0x41, 0x02, 0xFF] s =
      .ok (some (.mk 2 31 (.Bytes [0x02])), [],
           ⟨s.offset + 6, s.noErrors + 1, s.noWarnings⟩)) :=
  ⟨fun s => rfl, fun s => rfl⟩

/-- C9: the half-to-single widening mishandles subnormals.  The smallest
subnormal half (bit pattern `0x0001`, value `2^-24`) widens to the f32 bit
pattern `0x38002000`, whose value is `(2^23 + 8192) * 2^112 / 2^150 =
(1 + 2^-10) * 2^-15` — the subnormal arm re-biases the exponent but keeps
the mantissa un-normalised, so the represented value is not preserved. -/
theorem c9_float16_subnormal :
    f16_to_f32 0x0001 = 0x38002000 ∧
    readItem 5 [0xF9, 0x00, 0x01] ⟨0, 0, 0⟩ =
      .ok (some (.mk 7 25 (.Float16 0x38002000)), [], ⟨3, 0, 0⟩) ∧
    f16ValQ 0x0001 = 1 / 2 ^ 24 ∧
    f32ValQ (f16_to_f32 0x0001) ≠ f16ValQ 0x0001 := by
  have e1 : f16ValQ 0x0001 = 1 / 2 ^ 24 := by
    unfold f16ValQ
    rw [if_neg (by decide), if_pos (by decide), if_neg (by decide)]
    have hm : (0x0001 &&& 0x3FF : Nat) = 1 := by decide
    rw [hm]
    norm_num
  have e2 : f32ValQ 0x38002000 = 8396800 * 2 ^ 112 / 2 ^ 150 := by
    unfold f32ValQ
    rw [if_neg (by decide), if_neg (by decide), if_neg (by decide)]
    have hm : (0x38002000 &&& 0x7FFFFF : Nat) = 8192 := by decide
    have he : (0x38002000 >>> 23 &&& 0xFF : Nat) = 112 := by decide
    rw [hm, he]
    norm_num
  have hf : f16_to_f32 0x0001 = 0x38002000 := rfl
  refine ⟨rfl, rfl, e1, ?_⟩
  rw [hf, e1, e2]
  norm_num

theorem readTagLoop_shift (k j m : Nat) :
    ∀ (bs header : List Nat) (tagNum : Nat) (s : Asn1St),
      readTagLoop bs header tagNum (shiftA k j m s) =
        (readTagLoop bs header tagNum s).map
          (fun r => (r.1, r.2.1, r.2.2.1, shiftA k j m r.2.2.2)) := by
  intro bs
  induction bs with
  | nil => intro header tagNum s; rfl
  | cons b rest ih =>
    intro header tagNum s
    unfold readTagLoop
    dsimp only
    split
    · rfl
    · exact ih (header ++ [b]) _ { s with fPos := s.fPos + 1 }

theorem getItem_shift (k j m : Nat) (bs : List Nat) (s : Asn1St) :
    getItem bs (shiftA k j m s) =
      (getItem bs s).map (fun r => (r.1, r.2.1, shiftA k j m r.2.2)) := by
  cases bs with
  | nil => rfl
  | cons b rest =>
    unfold getItem
    dsimp only
    by_cases hb : b &&& 0x1F = 0x1F
    · simp only [if_pos hb]
      rw [readTagLoop_shift]
      rcases hr : readTagLoop rest [b] 0 s with e | ⟨header, tagNum, bs1, s1⟩
      · rfl
      · dsimp only [Except.map]
        cases bs1 with
        | nil => rfl
        | cons lenB bs2 =>
          dsimp only
          by_cases hx : lenB &&& 0x80 ≠ 0
          · simp only [if_pos hx]
            by_cases hz : lenB &&& 0x7F = 0
            · simp only [if_pos hz]; rfl
            · simp only [if_neg hz]
              by_cases hg : 4 < lenB &&& 0x7F
              · simp only [if_pos hg]
              · simp only [if_neg hg]
                rcases hlb : readLenBytes bs2 (lenB &&& 0x7F) (header ++ [lenB]) 0
                  with e | ⟨len, h2, b3⟩
                · rfl
                · simp only [Except.map, shiftA, Except.ok.injEq, Prod.mk.injEq,
                    Asn1St.mk.injEq, true_and, and_true]
                  omega
          · simp only [if_neg hx]; rfl
    · simp only [if_neg hb]
      cases rest with
      | nil => rfl
      | cons lenB bs2 =>
        dsimp only
        by_cases hx : lenB &&& 0x80 ≠ 0
        · simp only [if_pos hx]
          by_cases hz : lenB &&& 0x7F = 0
          · simp only [if_pos hz]; rfl
          · simp only [if_neg hz]
            by_cases hg : 4 < lenB &&& 0x7F
            · simp only [if_pos hg]; rfl
            · simp only [if_neg hg]
              rcases hlb : readLenBytes bs2 (lenB &&& 0x7F) ([b] ++ [lenB]) 0
                with e | ⟨len, h2, b3⟩
              · rfl
              · simp only [Except.map, shiftA, Except.ok.injEq, Prod.mk.injEq,
                  Asn1St.mk.injEq, true_and, and_true]
                omega
        · simp only [if_neg hx]; rfl

theorem readAdditional_shift (k j m : Nat) (bs : List Nat) (ai : Nat) (s : CborSt) :
    readAdditional bs ai (shiftC k j m s) =
      (readAdditional bs ai s).map (fun r => (r.1, r.2.1, shiftC k j m r.2.2)) := by
  unfold readAdditional
  by_cases h1 : ai ≤ 23
  · simp only [if_pos h1]; rfl
  simp only [if_neg h1]
  by_cases h2 : ai = 24
  · simp only [if_pos h2]
    rcases h : readExactC 1 bs with e | ⟨buf, rest⟩
    · rfl
    · rfl
  simp only [if_neg h2]
  by_cases h3 : ai = 25
  · simp only [if_pos h3]
    rcases h : readExactC 2 bs with e | ⟨buf, rest⟩
    · rfl
    · rfl
  simp only [if_neg h3]
  by_cases h4 : ai = 26
  · simp only [if_pos h4]
    rcases h : readExactC 4 bs with e | ⟨buf, rest⟩
    · rfl
    · rfl
  simp only [if_neg h4]
  by_cases h5 : ai = 27
  · simp only [if_pos h5]
    rcases h : readExactC 8 bs with e | ⟨buf, rest⟩
    · rfl
    · rfl
  simp only [if_neg h5]
  by_cases h6 : ai = 31
  · simp only [if_pos h6]; rfl
  simp only [if_neg h6]; rfl

theorem cborShift (k j m : Nat) : ∀ fuel : Nat,
    (∀ (bs : List Nat) (s : CborSt), readItem fuel bs (shiftC k j m s) =
      (readItem fuel bs s).map (fun r => (r.1, r.2.1, shiftC k j m r.2.2))) ∧
    (∀ (bs : List Nat) (s : CborSt) (acc : List Nat),
      bytesLoop fuel bs (shiftC k j m s) acc =
        (bytesLoop fuel bs s acc).map (fun r => (r.1, r.2.1, shiftC k j m r.2.2))) ∧
    (∀ (bs : List Nat) (s : CborSt) (acc : List Nat),
      textLoop fuel bs (shiftC k j m s) acc =
        (textLoop fuel bs s acc).map (fun r => (r.1, r.2.1, shiftC k j m r.2.2))) ∧
    (∀ (bs : List Nat) (s : CborSt) (acc : List CborItem),
      arrayIndefLoop fuel bs (shiftC k j m s) acc =
        (arrayIndefLoop fuel bs s acc).map
          (fun r => (r.1, r.2.1, shiftC k j m r.2.2))) ∧
    (∀ (count : Nat) (bs : List Nat) (s : CborSt) (acc : List CborItem),
      arrayDefLoop fuel count bs (shiftC k j m s) acc =
        (arrayDefLoop fuel count bs s acc).map
          (fun r => (r.1, r.2.1, shiftC k j m r.2.2))) ∧
    (∀ (bs : List Nat) (s : CborSt) (acc : List (CborItem × CborItem)),
      mapIndefLoop fuel bs (shiftC k j m s) acc =
        (mapIndefLoop fuel bs s acc).map
          (fun r => (r.1, r.2.1, shiftC k j m r.2.2))) ∧
    (∀ (count : Nat) (bs : List Nat) (s : CborSt) (acc : List (CborItem × CborItem)),
      mapDefLoop fuel count bs (shiftC k j m s) acc =
        (mapDefLoop fuel count bs s acc).map
          (fun r => (r.1, r.2.1, shiftC k j m r.2.2))) := by
  intro fuel
  induction fuel with
  | zero =>
    exact ⟨fun _ _ => rfl, fun _ _ _ => rfl, fun _ _ _ => rfl, fun _ _ _ => rfl,
           fun _ _ _ _ => rfl, fun _ _ _ => rfl, fun _ _ _ _ => rfl⟩
  | succ f ih =>
    obtain ⟨ihR, ihB, ihT, ihA, ihAD, ihM, ihMD⟩ := ih
    refine ⟨?_, ?_, ?_, ?_, ?_, ?_, ?_⟩
    · -- readItem
      intro bs s
      cases bs with
      | nil => rfl
      | cons byte rest =>
        unfold readItem
        dsimp only
        have hs0 : ({ shiftC k j m s with offset := (shiftC k j m s).offset + 1 } :
            CborSt) = shiftC k j m { s with offset := s.offset + 1 } := rfl
        rw [hs0]
        generalize ({ s with offset := s.offset + 1 } : CborSt) = s0
        by_cases h0 : (byte >>> 5) &&& 0x07 = 0
        · simp only [if_pos h0]
          rw [readAdditional_shift]
          rcases hra : readAdditional rest (byte &&& 0x1F) s0 with e | ⟨val, bs1, s1⟩
          · rfl
          · rfl
        simp only [if_neg h0]
        by_cases h1 : (byte >>> 5) &&& 0x07 = 1
        · simp only [if_pos h1]
          rw [readAdditional_shift]
          rcases hra : readAdditional rest (byte &&& 0x1F) s0 with e | ⟨val, bs1, s1⟩
          · rfl
          · rfl
        simp only [if_neg h1]
        by_cases h2 : (byte >>> 5) &&& 0x07 = 2
        · simp only [if_pos h2]
          by_cases hai : byte &&& 0x1F = 31
          · simp only [if_pos hai]
            rw [ihB]
            rcases hbl : bytesLoop f rest s0 [] with e | ⟨chunks, bs1, s1⟩
            · rfl
            · rfl
          · simp only [if_neg hai]
            rw [readAdditional_shift]
            rcases hra : readAdditional rest (byte &&& 0x1F) s0 with e | ⟨len, bs1, s1⟩
            · rfl
            · dsimp only [Except.map]
              rcases hre : readExactC len bs1 with e | ⟨bytes, bs2⟩
              · rfl
              · simp only [Except.ok.injEq, Prod.mk.injEq, shiftC,
                  CborSt.mk.injEq, true_and, and_true]
                omega
        simp only [if_neg h2]
        by_cases h3 : (byte >>> 5) &&& 0x07 = 3
        · simp only [if_pos h3]
          by_cases hai : byte &&& 0x1F = 31
          · simp only [if_pos hai]
            rw [ihT]
            rcases htl : textLoop f rest s0 [] with e | ⟨text, bs1, s1⟩
            · rfl
            · rfl
          · simp only [if_neg hai]
            rw [readAdditional_shift]
            rcases hra : readAdditional rest (byte &&& 0x1F) s0 with e | ⟨len, bs1, s1⟩
            · rfl
            · dsimp only [Except.map]
              rcases hre : readExactC len bs1 with e | ⟨bytes, bs2⟩
              · rfl
              · by_cases hu : utf8Valid bytes
                · simp only [hu, if_true]
                  simp only [Except.ok.injEq, Prod.mk.injEq, shiftC,
                    CborSt.mk.injEq, true_and, and_true]
                  omega
                · simp only [Bool.not_eq_true] at hu
                  simp only [hu, Bool.false_eq_true, if_false]
                  simp only [Except.ok.injEq, Prod.mk.injEq, shiftC,
                    CborSt.mk.injEq, true_and, and_true]
                  omega
        simp only [if_neg h3]
        by_cases h4 : (byte >>> 5) &&& 0x07 = 4
        · simp only [if_pos h4]
          by_cases hai : byte &&& 0x1F = 31
          · simp only [if_pos hai]
            rw [ihA]
            rcases hal : arrayIndefLoop f rest s0 [] with e | ⟨items, bs1, s1⟩
            · rfl
            · rfl
          · simp only [if_neg hai]
            rw [readAdditional_shift]
            rcases hra : readAdditional rest (byte &&& 0x1F) s0 with e | ⟨len, bs1, s1⟩
            · rfl
            · dsimp only [Except.map]
              rw [ihAD]
              rcases hdl : arrayDefLoop f len bs1 s1 [] with e | ⟨items, bs2, s2⟩
              · rfl
              · rfl
        simp only [if_neg h4]
        by_cases h5 : (byte >>> 5) &&& 0x07 = 5
        · simp only [if_pos h5]
          by_cases hai : byte &&& 0x1F = 31
          · simp only [if_pos hai]
            rw [ihM]
            rcases hml : mapIndefLoop f rest s0 [] with e | ⟨pairs, bs1, s1⟩
            · rfl
            · rfl
          · simp only [if_neg hai]
            rw [readAdditional_shift]
            rcases hra : readAdditional rest (byte &&& 0x1F) s0 with e | ⟨len, bs1, s1⟩
            · rfl
            · dsimp only [Except.map]
              rw [ihMD]
              rcases hdl : mapDefLoop f len bs1 s1 [] with e | ⟨pairs, bs2, s2⟩
              · rfl
              · rfl
        simp only [if_neg h5]
        by_cases h6 : (byte >>> 5) &&& 0x07 = 6
        · simp only [if_pos h6]
          rw [readAdditional_shift]
          rcases hra : readAdditional rest (byte &&& 0x1F) s0 with e | ⟨tagVal, bs1, s1⟩
          · rfl
          · dsimp only [Except.map]
            rw [ihR]
            rcases hri : readItem f bs1 s1 with e | ⟨oitem, bs2, s2⟩
            · rfl
            · cases oitem with
              | none => rfl
              | some inner => rfl
        simp only [if_neg h6]
        by_cases h7 : (byte >>> 5) &&& 0x07 = 7
        · simp only [if_pos h7]
          by_cases ha20 : byte &&& 0x1F = 20
          · simp only [if_pos ha20]; rfl
          simp only [if_neg ha20]
          by_cases ha21 : byte &&& 0x1F = 21
          · simp only [if_pos ha21]; rfl
          simp only [if_neg ha21]
          by_cases ha22 : byte &&& 0x1F = 22
          · simp only [if_pos ha22]; rfl
          simp only [if_neg ha22]
          by_cases ha23 : byte &&& 0x1F = 23
          · simp only [if_pos ha23]; rfl
          simp only [if_neg ha23]
          by_cases ha25 : byte &&& 0x1F = 25
          · simp only [if_pos ha25]
            rcases hre : readExactC 2 rest with e | ⟨buf, bs1⟩
            · rfl
            · rfl
          simp only [if_neg ha25]
          by_cases ha26 : byte &&& 0x1F = 26
          · simp only [if_pos ha26]
            rcases hre : readExactC 4 rest with e | ⟨buf, bs1⟩
            · rfl
            · rfl
          simp only [if_neg ha26]
          by_cases ha27 : byte &&& 0x1F = 27
          · simp only [if_pos ha27]
            rcases hre : readExactC 8 rest with e | ⟨buf, bs1⟩
            · rfl
            · rfl
          simp only [if_neg ha27]
          by_cases ha31 : byte &&& 0x1F = 31
          · simp only [if_pos ha31]; rfl
          simp only [if_neg ha31]
          by_cases halow : byte &&& 0x1F < 24
          · simp only [if_pos halow]; rfl
          · simp only [if_neg halow]
            rw [readAdditional_shift]
            rcases hra : readAdditional rest (byte &&& 0x1F) s0 with e | ⟨val, bs1, s1⟩
            · rfl
            · rfl
        · simp only [if_neg h7]
          rfl
    · -- bytesLoop
      intro bs s acc
      unfold bytesLoop
      rw [ihR]
      rcases hri : readItem f bs s with e | ⟨oitem, bs1, s1⟩
      · rfl
      · rcases oitem with _ | ⟨mt, ai2, v⟩
        · rfl
        · cases v
          case Break => rfl
          case Bytes b =>
            dsimp only [Except.map]
            rw [ihB]
            dsimp only [Except.map]
          all_goals {
            dsimp only [Except.map]
            have hb1 : (⟨(shiftC k j m s1).offset, (shiftC k j m s1).noErrors + 1,
                (shiftC k j m s1).noWarnings⟩ : CborSt) =
                shiftC k j m ⟨s1.offset, s1.noErrors + 1, s1.noWarnings⟩ := rfl
            rw [hb1, ihB]
            dsimp only [Except.map] }
    · -- textLoop
      intro bs s acc
      unfold textLoop
      rw [ihR]
      rcases hri : readItem f bs s with e | ⟨oitem, bs1, s1⟩
      · rfl
      · rcases oitem with _ | ⟨mt, ai2, v⟩
        · rfl
        · cases v
          case Break => rfl
          case Text t =>
            dsimp only [Except.map]
            rw [ihT]
            dsimp only [Except.map]
          all_goals {
            dsimp only [Except.map]
            have hb1 : (⟨(shiftC k j m s1).offset, (shiftC k j m s1).noErrors + 1,
                (shiftC k j m s1).noWarnings⟩ : CborSt) =
                shiftC k j m ⟨s1.offset, s1.noErrors + 1, s1.noWarnings⟩ := rfl
            rw [hb1, ihT]
            dsimp only [Except.map] }
    · -- arrayIndefLoop
      intro bs s acc
      unfold arrayIndefLoop
      rw [ihR]
      rcases hri : readItem f bs s with e | ⟨oitem, bs1, s1⟩
      · rfl
      · rcases oitem with _ | ⟨mt, ai2, v⟩
        · rfl
        · cases v
          case Break => rfl
          all_goals {
            dsimp only [Except.map]
            rw [ihA]
            dsimp only [Except.map] }
    · -- arrayDefLoop
      intro count bs s acc
      unfold arrayDefLoop
      cases count with
      | zero => rfl
      | succ c =>
        dsimp only
        rw [ihR]
        rcases hri : readItem f bs s with e | ⟨oitem, bs1, s1⟩
        · rfl
        · rcases oitem with _ | ⟨mt, ai2, v⟩
          · rfl
          · dsimp only [Except.map]
            rw [ihAD]
            dsimp only [Except.map]
    · -- mapIndefLoop
      intro bs s acc
      unfold mapIndefLoop
      rw [ihR]
      rcases hri : readItem f bs s with e | ⟨okey, bs1, s1⟩
      · rfl
      · rcases okey with _ | ⟨mt, ai2, v⟩
        · rfl
        · cases v
          case Break => rfl
          all_goals {
            dsimp only [Except.map]
            rw [ihR]
            rcases hrv : readItem f bs1 s1 with e | ⟨oval, bs2, s2⟩
            · rfl
            · rcases oval with _ | ⟨mt2, ai3, v2⟩
              · rfl
              · dsimp only [Except.map]
                rw [ihM]
                dsimp only [Except.map] }
    · -- mapDefLoop
      intro count bs s acc
      unfold mapDefLoop
      cases count with
      | zero => rfl
      | succ c =>
        dsimp only
        rw [ihR]
        rcases hri : readItem f bs s with e | ⟨okey, bs1, s1⟩
        · rfl
        · rcases okey with _ | ⟨mt, ai2, v⟩
          · rfl
          · dsimp only [Except.map]
            rw [ihR]
            rcases hrv : readItem f bs1 s1 with e | ⟨oval, bs2, s2⟩
            · rfl
            · rcases oval with _ | ⟨mt2, ai3, v2⟩
              · rfl
              · dsimp only [Except.map]
                rw [ihMD]
                dsimp only [Except.map]

/-- C10: both decode engines are deterministic — the decoded headers and
unit trees, the bytes consumed and the error/warning increments produced by
the decode entry points (`get_item` and `read_item`) are functions of the
input bytes alone: running either reader from an ambient state translated
by arbitrary position / error-count / warning-count offsets yields the
identical decoded value and remaining input, with the final state translated
by exactly the same offsets.  Two runs on the same input and configuration
therefore produce identical results. -/
theorem c10_determinism :
    (∀ (k j m : Nat) (bs : List Nat) (s : Asn1St),
      getItem bs (shiftA k j m s) =
        (getItem bs s).map (fun r => (r.1, r.2.1, shiftA k j m r.2.2))) ∧
    (∀ (k j m fuel : Nat) (bs : List Nat) (s : CborSt),
      readItem fuel bs (shiftC k j m s) =
        (readItem fuel bs s).map (fun r => (r.1, r.2.1, shiftC k j m r.2.2))) :=
  ⟨fun k j m bs s => getItem_shift k j m bs s,
   fun k j m fuel bs s => (cborShift k j m fuel).1 bs s⟩
